import Mathlib

/-!
Shallow embedding of the event-dispatch core in `dispatch.py` (module
`accordian`): the parameter binder/validator (`validate_func`, the wrapper
factory at lines 273-297), the `EventHandler` class, and the `Dispatch`
engine, together with theorems checking the specification's claims.

Python dictionaries are embedded as association lists with unique keys,
Python signatures as lists of parameters in declaration order, and the
cooperative `async` control flow as sequential state transformers (plus a
labelled transition system for the task-tracking invariant, where genuine
interleaving matters).
-/

/-- Python runtime values that flow through the dispatcher.  `pynone` is the
Python `None` object; `sentinel` is the module-level `missing = object()`
sentinel that the source uses for absent-dictionary-key checks (it is an
ordinary object distinct from every value a caller would pass). -/
inductive Val where
  | pynone : Val
  | int : Int → Val
  | str : String → Val
  | sentinel : Val
deriving DecidableEq

/-- The five parameter kinds of `inspect.Parameter.kind`. -/
inductive Kind where
  | positionalOnly : Kind
  | positionalOrKeyword : Kind
  | varPositional : Kind
  | keywordOnly : Kind
  | varKeyword : Kind
deriving DecidableEq

/-- One entry of `inspect.signature(callback).parameters`: a name, a kind and
an optional declared default (`none` embeds `inspect.Parameter.empty`). -/
structure Param where
  name : String
  kind : Kind
  default : Option Val
deriving DecidableEq

/-- A callback signature: its parameters in declaration order. -/
abbrev Sig := List Param

/-- A Python dict with string keys, as an association list. -/
abbrev PMap := List (String × Val)

/-- Dictionary lookup (`d.get(k)`), first matching key wins. -/
def look {α : Type} (k : String) : List (String × α) → Option α
  | [] => none
  | (k2, v) :: rest => if k2 = k then some v else look k rest

/-- The loop over `sig.parameters.values()` in `validate_func`
(src/dispatch.py lines 238-261): raise on a `VAR_POSITIONAL` input, raise on
a `VAR_KEYWORD` input whose name is one of the declared event parameters,
and otherwise remove the `VAR_KEYWORD` name from the expected-name set. -/
def validateScan : List Param → List String → List String →
    Except String (List String)
  | [], _, expected => .ok expected
  | p :: rest, params, expected =>
    match p.kind with
    | .varPositional => .error "VAR_POSITIONAL parameter"
    | .varKeyword =>
      if p.name ∈ params then .error "VAR_KEYWORD masks an actual parameter"
      else validateScan rest params (expected.erase p.name)
    | _ => validateScan rest params expected

/-- Embeds `validate_func(event, callback, params)` (src/dispatch.py lines 235-270):
after the parameter scan, every remaining expected input name must be among
the declared event parameters. -/
def validate_func (sig : Sig) (params : List String) : Except String Unit :=
  match validateScan sig params (sig.map Param.name) with
  | .error e => .error e
  | .ok expected =>
    let unavailable := expected.filter (fun n => decide (n ∉ params))
    if unavailable.isEmpty then .ok () else .error "unavailable parameters"

/-- The precomputed default mapping `base` built by the wrapper factory
(src/dispatch.py lines 278-285): one entry per callback input, holding the
declared default where present and the Python `None` object where the input
has no default ("use equivalent of empty"). -/
def baseDefaults (sig : Sig) : PMap :=
  sig.map (fun p => (p.name, p.default.getD Val.pynone))

/-- Kinds that name an actual input of the callback body (everything except
the two variadic kinds). -/
def isNamedKind : Kind → Bool
  | .positionalOnly => true
  | .positionalOrKeyword => true
  | .keywordOnly => true
  | _ => false

/-- What the callback observes when invoked: a value for each named input (in
declaration order) and, when the signature has a `VAR_KEYWORD` input, the
contents of that catch-all dict. -/
structure CallEnv where
  named : PMap
  catchAll : PMap
deriving DecidableEq

/-- Binding of the named (non-variadic) inputs in `sig.bind(**kw)`, processed
in declaration order as Python's `Signature._bind` does with no positional
arguments: a named input whose name appears in `kw` raises `TypeError` when
it is positional-only (a positional-only parameter cannot be passed as a
keyword) and is bound to the keyword value otherwise; a named input absent
from `kw` falls back to its declared default, and raises `TypeError`
(missing a required argument) when it has none. -/
def bindNamed (kw : PMap) : List Param → Except String PMap
  | [] => .ok []
  | p :: rest =>
    if isNamedKind p.kind then
      match look p.name kw, p.default with
      | some v, _ =>
        if p.kind = Kind.positionalOnly then
          .error "parameter is positional only, but was passed as a keyword"
        else
          match bindNamed kw rest with
          | .error e => .error e
          | .ok tail => .ok ((p.name, v) :: tail)
      | none, some d =>
        match bindNamed kw rest with
        | .error e => .error e
        | .ok tail => .ok ((p.name, d) :: tail)
      | none, none => .error "missing a required argument"
    else bindNamed kw rest

/-- Embeds `sig.bind(**kw)` followed by the call `callback(*bound.args,
**bound.kwargs)` (src/dispatch.py lines 294-295): every non-variadic
parameter name is consumed from `kw`, and the keyword arguments left over
are collected into the `VAR_KEYWORD` dict when the signature declares one,
and are an error otherwise. -/
def bindCall (sig : Sig) (kw : PMap) : Except String CallEnv :=
  match bindNamed kw sig with
  | .error e => .error e
  | .ok named =>
    let bound := (sig.filter (fun p => isNamedKind p.kind)).map Param.name
    let extras := kw.filter (fun kv => decide (kv.1 ∉ bound))
    if sig.any (fun p => p.kind == Kind.varKeyword) then
      .ok ⟨named, extras⟩
    else if extras.isEmpty then
      .ok ⟨named, []⟩
    else .error "unexpected keyword argument"

/-- The invocation wrapper produced at subscription time by the wrapper
factory (src/dispatch.py lines 287-295): copy the precomputed default
mapping, overlay the delivered `params` for each key the callback declares
(`params.get(key, missing)` with an is-not-`missing` check embeds as an
association-list lookup), then bind and call the callback. -/
def wrapperCall (sig : Sig) (params : PMap) : Except String CallEnv :=
  let unbound := (baseDefaults sig).map
    (fun kv => (kv.1, (look kv.1 params).getD kv.2))
  bindCall sig unbound

/-- The `EventHandler` object (src/dispatch.py lines 151-232).  A bound
callback is represented by its signature: the stored wrapper is determined
by it (`_wrap` is `partial_bind`, embedded as `wrapperCall`).  `tasks` holds
the identities in `self._tasks`. -/
structure EventHandler where
  event : String
  params : List String
  callbacks : List Sig
  running : Bool
  startShutdown : Bool
  shutdownComplete : Bool
  tasks : List Nat
deriving DecidableEq

/-- Embeds `EventHandler.__init__` (src/dispatch.py lines 152-160): a fresh handler
is not running, with no callbacks, no tasks and clear shutdown events. -/
def EventHandler.init (event : String) (params : List String) : EventHandler :=
  ⟨event, params, [], false, false, false, []⟩

/-- Embeds `EventHandler.register` (src/dispatch.py lines 181-185): validate, wrap,
append the wrapped callback, and hand back the original callback object.
The source performs no lifecycle-state check here. -/
def EventHandler.register (h : EventHandler) (cb : Sig) :
    Except String (EventHandler × Sig) :=
  match validate_func cb h.params with
  | .error e => .error e
  | .ok _ => .ok ({ h with callbacks := h.callbacks ++ [cb] }, cb)

/-- Embeds `EventHandler.__call__` (src/dispatch.py lines 162-171): raise unless
running; otherwise spawn one task per bound callback (fresh identities from
`nextId`) and record each in the task set.  The returned list carries the
result each spawned invocation will produce for the delivered `params`. -/
def EventHandler.call (h : EventHandler) (params : PMap) (nextId : Nat) :
    Except String (EventHandler × List (Except String CallEnv)) :=
  if h.running then
    .ok ({ h with tasks :=
             h.tasks ++ (List.range h.callbacks.length).map (fun i => nextId + i) },
         h.callbacks.map (fun cb => wrapperCall cb params))
  else .error "EventHandler must be running to delegate events"

/-- Embeds `EventHandler.start` (src/dispatch.py lines 187-204), with the await on a
completed shutdown resolved: no-op when running, else clear the shutdown
events and mark running. -/
def EventHandler.start (h : EventHandler) : EventHandler :=
  if h.running then h
  else if h.startShutdown then
    { h with startShutdown := false, shutdownComplete := false, running := true }
  else { h with running := true }

/-- Embeds `EventHandler.stop` (src/dispatch.py lines 206-223), with the drain
resolved: no-op when not running, else mark not running, signal shutdown
started, wait out every outstanding task (each completion removes its entry
via `_task_done_callback`) and signal shutdown complete. -/
def EventHandler.stop (h : EventHandler) : EventHandler :=
  if h.running then
    { h with running := false, startShutdown := true, tasks := [],
             shutdownComplete := true }
  else h

/-- The `Dispatch` object (src/dispatch.py lines 10-148).  `queue` is the
pending-delivery queue in FIFO order; `consumerLive` records whether a
`_run` task spawned by `start` is still alive. -/
structure Dispatch where
  handlers : List (String × EventHandler)
  queue : List (String × PMap)
  running : Bool
  startShutdown : Bool
  shutdownComplete : Bool
  resumeProcessing : Bool
  consumerLive : Bool
deriving DecidableEq

/-- Embeds `Dispatch.__init__` (src/dispatch.py lines 12-19). -/
def Dispatch.init : Dispatch :=
  ⟨[], [], false, false, false, false, false⟩

/-- Embeds `Dispatch.on` (src/dispatch.py lines 21-35): raise on an unknown event,
else hand back the handler (whose bound `register` method the source
returns). -/
def Dispatch.on (d : Dispatch) (event : String) : Except String EventHandler :=
  match look event d.handlers with
  | none => .error "Unknown event"
  | some h => .ok h

/-- Embeds `Dispatch.trigger` (src/dispatch.py lines 37-40): non-blocking enqueue of
the delivery, then set the resume event to wake the consumer. -/
def Dispatch.trigger (d : Dispatch) (event : String) (params : PMap) : Dispatch :=
  { d with queue := d.queue ++ [(event, params)], resumeProcessing := true }

/-- Embeds `Dispatch.register` (src/dispatch.py lines 42-55): raise when the event
already has a handler, else insert a fresh (non-running) handler. -/
def Dispatch.register (d : Dispatch) (event : String) (params : List String) :
    Except String Dispatch :=
  match look event d.handlers with
  | some _ => .error "Event already registered"
  | none =>
    .ok { d with handlers := d.handlers ++ [(event, EventHandler.init event params)] }

/-- Embeds `Dispatch.unregister` (src/dispatch.py lines 57-68): silently drop the
handler entry when present. -/
def Dispatch.unregister (d : Dispatch) (event : String) : Dispatch :=
  { d with handlers := d.handlers.filter (fun kv => decide (kv.1 ≠ event)) }

/-- Subscription through the engine, `dispatch.on(event)(callback)`: look the
handler up, register against it, and store the updated handler back in the
registry (the source mutates the shared handler object in place). -/
def Dispatch.subscribe (d : Dispatch) (event : String) (cb : Sig) :
    Except String Dispatch :=
  match d.on event with
  | .error e => .error e
  | .ok h =>
    match h.register cb with
    | .error e => .error e
    | .ok (h2, _) =>
      .ok { d with handlers :=
              d.handlers.map (fun kv => if kv.1 = event then (kv.1, h2) else kv) }

/-- Embeds `Dispatch.start` (src/dispatch.py lines 70-91), awaits resolved: no-op
when running; else clear shutdown signalling if a shutdown had started, mark
running, start every registered handler and spawn the consumer loop. -/
def Dispatch.start (d : Dispatch) : Dispatch :=
  if d.running then d
  else
    let d1 := if d.startShutdown then
        { d with startShutdown := false, shutdownComplete := false,
                 resumeProcessing := false }
      else d
    { d1 with running := true,
              handlers := d1.handlers.map (fun kv => (kv.1, kv.2.start)),
              consumerLive := true }

/-- Embeds `Dispatch.stop` (src/dispatch.py lines 109-133), awaits resolved: no-op
when not running; else mark not running, signal shutdown, wake the consumer,
stop every handler (draining their tasks) and wait for the consumer loop to
signal completion and exit. -/
def Dispatch.stop (d : Dispatch) : Dispatch :=
  if d.running then
    { d with running := false, startShutdown := true, resumeProcessing := true,
             handlers := d.handlers.map (fun kv => (kv.1, kv.2.stop)),
             shutdownComplete := true, consumerLive := false }
  else d

/-- Embeds `Dispatch.clear` (src/dispatch.py lines 93-102): raise while running,
else drain the queue. -/
def Dispatch.clear (d : Dispatch) : Except String Dispatch :=
  if d.running then .error "Cannot clear the queue while running"
  else .ok { d with queue := [] }

/-- Embeds `Dispatch.events` (src/dispatch.py lines 104-107): the queue depth. -/
def Dispatch.events (d : Dispatch) : Nat :=
  d.queue.length

/-- One iteration of the consumer loop `_run` with a non-empty queue
(src/dispatch.py lines 137-141): dequeue the head delivery, look its handler
up (defaulting to `noop`, so an unknown event is dropped silently), and
delegate to the handler, which spawns the callback invocations. -/
def Dispatch.runStep (d : Dispatch) (nextId : Nat) :
    Except String (Dispatch × List (Except String CallEnv)) :=
  match d.queue with
  | [] => .ok (d, [])
  | (event, params) :: rest =>
    match look event d.handlers with
    | none => .ok ({ d with queue := rest }, [])
    | some h =>
      match h.call params nextId with
      | .error e => .error e
      | .ok (h2, invs) =>
        let hs := d.handlers.map (fun kv => if kv.1 = event then (kv.1, h2) else kv)
        .ok ({ d with queue := rest, handlers := hs }, invs)

/-- The sequence of deliveries the consumer loop routes to a handler when it
drains a queue (src/dispatch.py lines 135-148): deliveries are dequeued in
FIFO order and a delivery whose event has no handler is dropped. -/
def drainTrace (handlers : List (String × EventHandler)) :
    List (String × PMap) → List (String × PMap)
  | [] => []
  | (event, params) :: rest =>
    match look event handlers with
    | none => drainTrace handlers rest
    | some _ => (event, params) :: drainTrace handlers rest

/-- Enqueue a whole list of triggers in order. -/
def triggerFold (d : Dispatch) (ds : List (String × PMap)) : Dispatch :=
  ds.foldl (fun acc ep => acc.trigger ep.1 ep.2) d

/-- State of one `EventHandler` for the interleaved task-tracking model:
`tasks` is `self._tasks` (identities of entries in the dict), `inflight` is
the set of spawned callback invocations that have not yet completed,
`draining` holds the snapshot `list(self._tasks.values())` while a `stop`
call is suspended on it, and `spawned` is a fresh-identity counter. -/
structure TaskState where
  running : Bool
  startShutdown : Bool
  shutdownComplete : Bool
  tasks : List Nat
  inflight : List Nat
  draining : Option (List Nat)
  spawned : Nat
deriving DecidableEq

/-- The initial state of a freshly constructed handler. -/
def TaskState.init : TaskState :=
  ⟨false, false, false, [], [], none, 0⟩

/-- Interleaved small-step semantics of an `EventHandler`'s lifecycle
(src/dispatch.py lines 162-223).  `deliver` is `__call__` spawning one task
per bound callback; `complete` is one spawned invocation finishing and its
`_task_done_callback` removing it from the task set; `stopBegin` is the
synchronous prefix of `stop()` up to the suspension on `asyncio.wait`;
`stopFinish` is `stop()` resuming once every task in its snapshot has
completed; `restart` is `start()` running to completion (it can only proceed
once a started shutdown has signalled completion). -/
inductive HandlerStep : TaskState → TaskState → Prop where
  | deliver (s : TaskState) (k : Nat) (hrun : s.running = true) :
      HandlerStep s
        { s with tasks := s.tasks ++ (List.range k).map (fun i => s.spawned + i),
                 inflight := s.inflight ++ (List.range k).map (fun i => s.spawned + i),
                 spawned := s.spawned + k }
  | complete (s : TaskState) (t : Nat) (hmem : t ∈ s.inflight) :
      HandlerStep s
        { s with inflight := s.inflight.erase t, tasks := s.tasks.erase t }
  | stopBegin (s : TaskState) (hrun : s.running = true) :
      HandlerStep s
        { s with running := false, startShutdown := true, draining := some s.tasks }
  | stopFinish (s : TaskState) (snap : List Nat) (hdr : s.draining = some snap)
      (hdone : ∀ t ∈ snap, t ∉ s.inflight) :
      HandlerStep s
        { s with shutdownComplete := true, draining := none }
  | restart (s : TaskState) (hrun : s.running = false)
      (hw : s.startShutdown = true → s.shutdownComplete = true) :
      HandlerStep s
        { s with running := true, startShutdown := false, shutdownComplete := false }

/-- States of the handler lifecycle reachable from the initial state. -/
def TaskReachable (s : TaskState) : Prop :=
  Relation.ReflTransGen HandlerStep TaskState.init s

/-- The inductive invariant of the handler lifecycle: the task set mirrors the
in-flight invocations exactly; while a `stop` is suspended on its snapshot the
handler is not running, shutdown has been signalled but not completed, and the
task set is contained in the snapshot; shutdown-complete implies the task set
has fully drained. -/
def TaskInv (s : TaskState) : Prop :=
  s.tasks = s.inflight ∧
  (s.running = true → s.shutdownComplete = false) ∧
  (∀ snap, s.draining = some snap →
    s.tasks ⊆ snap ∧ s.running = false ∧ s.startShutdown = true ∧
      s.shutdownComplete = false) ∧
  (s.shutdownComplete = true → s.tasks = [])

theorem taskInv_init : TaskInv TaskState.init :=
  ⟨rfl, fun _ => rfl, fun _ hdr => Option.noConfusion hdr, fun _ => rfl⟩

theorem taskInv_step {s s2 : TaskState} (hs : TaskInv s) (hstep : HandlerStep s s2) :
    TaskInv s2 := by
  obtain ⟨h1, h2, h3, h4⟩ := hs
  cases hstep with
  | deliver k hrun =>
    have hsc : s.shutdownComplete = false := h2 hrun
    have hdn : s.draining = none := by
      cases hd : s.draining with
      | none => rfl
      | some snap => exact Bool.noConfusion ((h3 snap hd).2.1.symm.trans hrun)
    refine ⟨?_, fun _ => hsc, ?_, ?_⟩
    · show s.tasks ++ _ = s.inflight ++ _
      rw [h1]
    · intro snap hdr
      exact Option.noConfusion (hdn.symm.trans hdr)
    · intro h
      exact Bool.noConfusion (hsc.symm.trans h)
  | complete t hmem =>
    refine ⟨?_, h2, ?_, ?_⟩
    · show s.tasks.erase t = s.inflight.erase t
      rw [h1]
    · intro snap hdr
      have h3s := h3 snap hdr
      exact ⟨(List.erase_subset t s.tasks).trans h3s.1, h3s.2⟩
    · intro h
      show s.tasks.erase t = []
      rw [h4 h]
      rfl
  | stopBegin hrun =>
    have hsc : s.shutdownComplete = false := h2 hrun
    refine ⟨h1, fun h => Bool.noConfusion h, ?_, ?_⟩
    · intro snap hdr
      have hsnap : s.tasks = snap := Option.some.inj hdr
      exact ⟨fun x hx => hsnap ▸ hx, rfl, rfl, hsc⟩
    · intro h
      exact Bool.noConfusion (hsc.symm.trans h)
  | stopFinish snap hdr hdone =>
    have h3s := h3 snap hdr
    have htasks : s.tasks = [] := by
      rw [List.eq_nil_iff_forall_not_mem]
      intro t ht
      exact hdone t (h3s.1 ht) (h1 ▸ ht)
    refine ⟨h1, ?_, ?_, fun _ => htasks⟩
    · intro h
      exact Bool.noConfusion (h3s.2.1.symm.trans h)
    · intro snap2 hdr2
      exact Option.noConfusion hdr2
  | restart hrun hw =>
    have hdn : s.draining = none := by
      cases hd : s.draining with
      | none => rfl
      | some snap =>
        have h3s := h3 snap hd
        exact Bool.noConfusion ((hw h3s.2.2.1).symm.trans h3s.2.2.2)
    refine ⟨h1, fun _ => rfl, ?_, ?_⟩
    · intro snap hdr
      exact Option.noConfusion (hdn.symm.trans hdr)
    · intro h
      exact Bool.noConfusion h

theorem taskInv_reachable {s : TaskState} (h : TaskReachable s) : TaskInv s := by
  induction h with
  | refl => exact taskInv_init
  | tail _ hstep ih => exact taskInv_step ih hstep

theorem look_sig_map (g : Param → Val) (sig : Sig) (p : Param)
    (hnd : (sig.map Param.name).Nodup) (hp : p ∈ sig) :
    look p.name (sig.map (fun q => (q.name, g q))) = some (g p) := by
  induction sig with
  | nil => cases hp
  | cons q rest ih =>
    simp only [List.map_cons, List.nodup_cons] at hnd
    rcases List.mem_cons.mp hp with h | h
    · subst h
      simp [look]
    · have hne : q.name ≠ p.name := by
        intro he
        exact hnd.1 (he ▸ List.mem_map_of_mem Param.name h)
      simp only [List.map_cons, look, if_neg hne]
      exact ih hnd.2 h

theorem bindNamed_spec (kw : PMap) (g : Param → Val) (sig2 : List Param)
    (h : ∀ p ∈ sig2, isNamedKind p.kind = true →
      p.kind ≠ Kind.positionalOnly ∧ look p.name kw = some (g p)) :
    bindNamed kw sig2 =
      Except.ok ((sig2.filter (fun p => isNamedKind p.kind)).map
        (fun p => (p.name, g p))) := by
  induction sig2 with
  | nil => rfl
  | cons p rest ih =>
    have hrest := ih (fun q hq => h q (List.mem_cons_of_mem p hq))
    by_cases hn : isNamedKind p.kind = true
    · obtain ⟨hpo, hlk⟩ := h p (List.mem_cons_self p rest) hn
      simp only [bindNamed, hn, if_true, hlk, if_neg hpo, hrest,
        List.filter_cons, List.map_cons]
    · have hnf : isNamedKind p.kind = false := Bool.not_eq_true _ |>.mp hn
      simp only [bindNamed, hnf, Bool.false_eq_true, if_false, hrest,
        List.filter_cons]

theorem bindNamed_posonly_error (kw : PMap) (sig2 : List Param) (q : Param)
    (hq : q ∈ sig2) (hkind : q.kind = Kind.positionalOnly)
    (hlk : ∃ v, look q.name kw = some v) :
    ∃ e, bindNamed kw sig2 = Except.error e := by
  induction sig2 with
  | nil => cases hq
  | cons p rest ih =>
    rcases List.mem_cons.mp hq with rfl | hmem
    · obtain ⟨v, hv⟩ := hlk
      have hn : isNamedKind q.kind = true := by rw [hkind]; rfl
      exact ⟨"parameter is positional only, but was passed as a keyword",
        by simp only [bindNamed, hn, if_true, hv, if_pos hkind]⟩
    · obtain ⟨e, he⟩ := ih hmem
      by_cases hn : isNamedKind p.kind = true
      · cases hlp : look p.name kw with
        | some v =>
          by_cases hpo : p.kind = Kind.positionalOnly
          · exact ⟨"parameter is positional only, but was passed as a keyword",
              by simp only [bindNamed, hn, if_true, hlp, if_pos hpo]⟩
          · exact ⟨e, by simp only [bindNamed, hn, if_true, hlp, if_neg hpo, he]⟩
        | none =>
          cases hd : p.default with
          | some d => exact ⟨e, by simp only [bindNamed, hn, if_true, hlp, hd, he]⟩
          | none =>
            exact ⟨"missing a required argument",
              by simp only [bindNamed, hn, if_true, hlp, hd]⟩
      · have hnf : isNamedKind p.kind = false := Bool.not_eq_true _ |>.mp hn
        exact ⟨e, by simp only [bindNamed, hnf, Bool.false_eq_true, if_false, he]⟩

theorem unbound_eq_overlay (sig : Sig) (params : PMap) :
    (baseDefaults sig).map (fun kv => (kv.1, (look kv.1 params).getD kv.2)) =
      sig.map (fun q =>
        (q.name, (look q.name params).getD (q.default.getD Val.pynone))) := by
  unfold baseDefaults
  rw [List.map_map]
  rfl

theorem wrapperCall_named (sig : Sig) (params : PMap)
    (hk : ∀ q ∈ sig, q.kind ≠ Kind.positionalOnly ∧ q.kind ≠ Kind.varPositional)
    (hnd : (sig.map Param.name).Nodup) :
    ∃ ca, wrapperCall sig params =
      Except.ok ⟨(sig.filter (fun p => isNamedKind p.kind)).map
        (fun q => (q.name, (look q.name params).getD (q.default.getD Val.pynone))), ca⟩ := by
  show ∃ ca, bindCall sig
      ((baseDefaults sig).map (fun kv => (kv.1, (look kv.1 params).getD kv.2))) = _
  rw [unbound_eq_overlay]
  unfold bindCall
  rw [bindNamed_spec _ (fun q => (look q.name params).getD (q.default.getD Val.pynone)) sig
    (fun p hp _ => ⟨(hk p hp).1,
      look_sig_map (fun q => (look q.name params).getD (q.default.getD Val.pynone)) sig p hnd hp⟩)]
  dsimp only
  by_cases hany : sig.any (fun p => p.kind == Kind.varKeyword) = true
  · exact ⟨_, by rw [if_pos hany]⟩
  · have hallnamed : ∀ q ∈ sig, isNamedKind q.kind = true := by
      intro q hq
      have hnvk := (List.any_eq_false.mp (Bool.not_eq_true _ |>.mp hany)) q hq
      obtain ⟨h1, h2⟩ := hk q hq
      cases hqk : q.kind
      · exact absurd hqk h1
      · rfl
      · exact absurd hqk h2
      · rfl
      · have hb : (q.kind == Kind.varKeyword) = true := by rw [hqk]; rfl
        exact absurd hb hnvk
    have hfil : sig.filter (fun p => isNamedKind p.kind) = sig :=
      List.filter_eq_self.mpr hallnamed
    have hextras : (sig.map (fun q =>
        (q.name, (look q.name params).getD (q.default.getD Val.pynone)))).filter
          (fun kv => decide
            (kv.1 ∉ (sig.filter (fun p => isNamedKind p.kind)).map Param.name)) = [] := by
      rw [hfil, List.filter_eq_nil_iff]
      intro kv hkv
      rcases List.mem_map.mp hkv with ⟨q, hq, rfl⟩
      simp only [decide_eq_true_eq, not_not]
      exact List.mem_map_of_mem Param.name hq
    refine ⟨[], ?_⟩
    rw [if_neg hany]
    rw [hextras]
    rfl

/-- C1 counterexample: for a callback whose single input has no declared
default, the precomputed default mapping holds the ordinary Python `None`
value rather than the absent marker (the module-level `missing` sentinel),
and invoking the wrapper with a parameter mapping that omits this required
input succeeds with `None` bound, instead of surfacing a `BindingError`. -/
theorem noDefault_marker_cex :
    baseDefaults [⟨"a", Kind.positionalOrKeyword, none⟩] = [("a", Val.pynone)] ∧
    Val.pynone ≠ Val.sentinel ∧
    wrapperCall [⟨"a", Kind.positionalOrKeyword, none⟩] [] =
      Except.ok ⟨[("a", Val.pynone)], []⟩ :=
  ⟨rfl, fun h => Val.noConfusion h, rfl⟩

/-- C1 (amended): for every callback input that has no declared default, the
precomputed default mapping holds the ordinary Python `None` value, not an
absent marker.  For a callback with no positional-only inputs - the only
callbacks the wrapper can invoke, since it always passes every input by
keyword - invoking the wrapper with a parameter mapping that omits such a
required named input silently substitutes `None`: the call succeeds and the
callback receives `None` for that input, with no `BindingError`.  When the
callback does declare a positional-only input, the wrapper call instead
fails with the generic `TypeError` of signature binding (a positional-only
parameter passed as a keyword), again not a `BindingError`. -/
theorem noDefault_binds_none (sig : Sig) (params : PMap) (p : Param)
    (hnd : (sig.map Param.name).Nodup)
    (hp : p ∈ sig) (hdef : p.default = none)
    (habs : look p.name params = none) :
    look p.name (baseDefaults sig) = some Val.pynone ∧
    ((∀ q ∈ sig, q.kind ≠ Kind.positionalOnly ∧ q.kind ≠ Kind.varPositional) →
      p.kind ≠ Kind.varKeyword →
      ∃ env, wrapperCall sig params = Except.ok env ∧
        look p.name env.named = some Val.pynone) ∧
    ((∃ q ∈ sig, q.kind = Kind.positionalOnly) →
      ∃ e, wrapperCall sig params = Except.error e) := by
  refine ⟨?_, ?_, ?_⟩
  · have := look_sig_map (fun q => q.default.getD Val.pynone) sig p hnd hp
    show look p.name (sig.map (fun q => (q.name, q.default.getD Val.pynone))) = _
    rw [this]
    show some (p.default.getD Val.pynone) = _
    rw [hdef]
    rfl
  · intro hker hpvk
    obtain ⟨ca, hca⟩ := wrapperCall_named sig params hker hnd
    refine ⟨_, hca, ?_⟩
    have hnamed : isNamedKind p.kind = true := by
      obtain ⟨h1, h2⟩ := hker p hp
      cases hkk : p.kind
      · exact absurd hkk h1
      · rfl
      · exact absurd hkk h2
      · rfl
      · exact absurd hkk hpvk
    have hpf : p ∈ sig.filter (fun q => isNamedKind q.kind) :=
      List.mem_filter.mpr ⟨hp, hnamed⟩
    have hndf : ((sig.filter (fun q => isNamedKind q.kind)).map Param.name).Nodup :=
      List.Nodup.sublist
        (List.Sublist.map Param.name (List.filter_sublist sig)) hnd
    have := look_sig_map
      (fun q => (look q.name params).getD (q.default.getD Val.pynone))
      (sig.filter (fun q => isNamedKind q.kind)) p hndf hpf
    show look p.name ((sig.filter (fun q => isNamedKind q.kind)).map (fun q =>
      (q.name, (look q.name params).getD (q.default.getD Val.pynone)))) = _
    rw [this]
    show some ((look p.name params).getD (p.default.getD Val.pynone)) = _
    rw [habs, hdef]
    rfl
  · rintro ⟨q, hq, hqk⟩
    have hlk : look q.name ((baseDefaults sig).map
        (fun kv => (kv.1, (look kv.1 params).getD kv.2))) =
        some ((look q.name params).getD (q.default.getD Val.pynone)) := by
      rw [unbound_eq_overlay]
      exact look_sig_map
        (fun r => (look r.name params).getD (r.default.getD Val.pynone)) sig q hnd hq
    obtain ⟨e, he⟩ := bindNamed_posonly_error
      ((baseDefaults sig).map (fun kv => (kv.1, (look kv.1 params).getD kv.2)))
      sig q hq hqk ⟨_, hlk⟩
    refine ⟨e, ?_⟩
    show bindCall sig
      ((baseDefaults sig).map (fun kv => (kv.1, (look kv.1 params).getD kv.2))) = _
    unfold bindCall
    rw [he]

/-- The witness callback for the amended C1: a keyword-only input with no
default alongside a catch-all, the kinds the previous restriction left out. -/
def sigKwOnlyAndCatchAll : Sig :=
  [⟨"a", Kind.keywordOnly, none⟩, ⟨"kw", Kind.varKeyword, none⟩]

/-- Witness for the amended C1 at the keyword-only-plus-catch-all callback
and the empty parameter mapping. -/
theorem noDefault_binds_none_witness :
    look "a" (baseDefaults sigKwOnlyAndCatchAll) = some Val.pynone ∧
    ((∀ q ∈ sigKwOnlyAndCatchAll,
        q.kind ≠ Kind.positionalOnly ∧ q.kind ≠ Kind.varPositional) →
      Kind.keywordOnly ≠ Kind.varKeyword →
      ∃ env, wrapperCall sigKwOnlyAndCatchAll [] = Except.ok env ∧
        look "a" env.named = some Val.pynone) ∧
    ((∃ q ∈ sigKwOnlyAndCatchAll, q.kind = Kind.positionalOnly) →
      ∃ e, wrapperCall sigKwOnlyAndCatchAll [] = Except.error e) :=
  noDefault_binds_none sigKwOnlyAndCatchAll [] ⟨"a", Kind.keywordOnly, none⟩
    (by decide) (by decide) rfl rfl

/-- C2: evaluation of the code at the Scenario B input.  Validation accepts
the callback declaring only a catch-all `**kwargs` for an event with
declared parameter `x` (no `BindingError`), but delivering `x = 1` does not
pass `x` into the catch-all: the wrapper invokes the callback with the
catch-all dict holding only the bogus entry binding the catch-all's own name
to `None`, and the supplied event parameter is dropped. -/
theorem catchAll_drops_event_params :
    validate_func [⟨"kwargs", Kind.varKeyword, none⟩] ["x"] = Except.ok () ∧
    wrapperCall [⟨"kwargs", Kind.varKeyword, none⟩] [("x", Val.int 1)] =
      Except.ok ⟨[], [("kwargs", Val.pynone)]⟩ ∧
    look "x" [("kwargs", Val.pynone)] = none :=
  ⟨rfl, rfl, rfl⟩

/-- C3 counterexample: a handler in the shutting_down state (shutdown
started, not yet complete, not running) still accepts `register`: the call
succeeds, appends the callback and returns it, instead of failing. -/
theorem register_during_shutdown_cex :
    EventHandler.register ⟨"e", ["x"], [], false, true, false, []⟩
        [⟨"x", Kind.positionalOrKeyword, none⟩] =
      Except.ok (⟨"e", ["x"], [[⟨"x", Kind.positionalOrKeyword, none⟩]],
                   false, true, false, []⟩,
                 [⟨"x", Kind.positionalOrKeyword, none⟩]) := rfl

/-- C3 (amended): `EventHandler.register` performs no lifecycle-state check
at all: in every handler state, including shutting_down, a callback that
passes validation is bound, its wrapper is appended to the handler's
callback list, and the original callback object is returned unchanged. -/
theorem register_ignores_lifecycle (h : EventHandler) (cb : Sig)
    (hv : validate_func cb h.params = Except.ok ()) :
    h.register cb = Except.ok ({ h with callbacks := h.callbacks ++ [cb] }, cb) := by
  unfold EventHandler.register
  rw [hv]

/-- Witness for the amended C3 at a shutting-down handler. -/
theorem register_ignores_lifecycle_witness :
    EventHandler.register ⟨"e", ["x"], [], false, true, false, []⟩
        [⟨"x", Kind.positionalOrKeyword, none⟩] =
      Except.ok (({ (⟨"e", ["x"], [], false, true, false, []⟩ : EventHandler) with
                     callbacks := [] ++ [[⟨"x", Kind.positionalOrKeyword, none⟩]] }),
                 [⟨"x", Kind.positionalOrKeyword, none⟩]) :=
  register_ignores_lifecycle ⟨"e", ["x"], [], false, true, false, []⟩
    [⟨"x", Kind.positionalOrKeyword, none⟩] rfl

theorem validateScan_ok_iff (params : List String) (sig : List Param) :
    ∀ expected : List String,
      (∃ out, validateScan sig params expected = Except.ok out) ↔
        ∀ p ∈ sig, p.kind ≠ Kind.varPositional ∧
          ¬(p.kind = Kind.varKeyword ∧ p.name ∈ params) := by
  induction sig with
  | nil => intro expected; simp [validateScan]
  | cons p rest ih =>
    intro expected
    obtain ⟨pn, pk, pd⟩ := p
    cases pk with
    | positionalOnly => simp [validateScan, ih expected, List.forall_mem_cons]
    | positionalOrKeyword => simp [validateScan, ih expected, List.forall_mem_cons]
    | keywordOnly => simp [validateScan, ih expected, List.forall_mem_cons]
    | varPositional => simp [validateScan, List.forall_mem_cons]
    | varKeyword =>
      by_cases hmem : pn ∈ params
      · simp [validateScan, hmem, List.forall_mem_cons]
      · simp [validateScan, hmem, ih (expected.erase pn), List.forall_mem_cons]

theorem validateScan_ok_mem (params : List String) (sig : List Param) :
    ∀ expected out : List String, expected.Nodup →
      validateScan sig params expected = Except.ok out →
      ∀ n, n ∈ out ↔ n ∈ expected ∧
        ∀ p ∈ sig, p.kind = Kind.varKeyword → p.name ≠ n := by
  induction sig with
  | nil =>
    intro expected out _ hscan n
    cases hscan
    simp
  | cons p rest ih =>
    intro expected out hnd hscan n
    obtain ⟨pn, pk, pd⟩ := p
    cases pk with
    | positionalOnly =>
      simp only [validateScan] at hscan
      simp [ih expected out hnd hscan n, List.forall_mem_cons]
    | positionalOrKeyword =>
      simp only [validateScan] at hscan
      simp [ih expected out hnd hscan n, List.forall_mem_cons]
    | keywordOnly =>
      simp only [validateScan] at hscan
      simp [ih expected out hnd hscan n, List.forall_mem_cons]
    | varPositional => simp [validateScan] at hscan
    | varKeyword =>
      by_cases hmem : pn ∈ params
      · simp [validateScan, hmem] at hscan
      · simp only [validateScan, if_neg hmem] at hscan
        have hih := ih (expected.erase pn) out (hnd.erase pn) hscan n
        rw [hih, hnd.mem_erase_iff, List.forall_mem_cons]
        constructor
        · rintro ⟨⟨hne, hin⟩, hrest⟩
          exact ⟨hin, fun _ => (Ne.symm hne), hrest⟩
        · rintro ⟨hin, hpn, hrest⟩
          exact ⟨⟨Ne.symm (hpn rfl), hin⟩, hrest⟩

/-- C4: validation raises a `BindingError` exactly when (a) some input of
the callback is a variadic positional parameter, or (b) the callback's
catch-all keyword parameter is named after one of the event's declared
parameters, or (c) some named input other than the catch-all is not among
the event's declared parameters; in all other cases validation succeeds. -/
theorem validate_raises_iff (sig : Sig) (params : List String)
    (hnd : (sig.map Param.name).Nodup) :
    (∃ e, validate_func sig params = Except.error e) ↔
      ((∃ p ∈ sig, p.kind = Kind.varPositional) ∨
       (∃ p ∈ sig, p.kind = Kind.varKeyword ∧ p.name ∈ params) ∨
       (∃ p ∈ sig, p.kind ≠ Kind.varKeyword ∧ p.name ∉ params)) := by
  unfold validate_func
  cases hscan : validateScan sig params (sig.map Param.name) with
  | error e =>
    have hno : ¬ ∃ out, validateScan sig params (sig.map Param.name) = Except.ok out := by
      rw [hscan]
      rintro ⟨out, hout⟩
      cases hout
    rw [validateScan_ok_iff] at hno
    push_neg at hno
    obtain ⟨p, hp, hcond⟩ := hno
    constructor
    · intro _
      by_cases hvp : p.kind = Kind.varPositional
      · exact Or.inl ⟨p, hp, hvp⟩
      · exact Or.inr (Or.inl ⟨p, hp, hcond hvp⟩)
    · intro _
      exact ⟨e, rfl⟩
  | ok out =>
    have hall := (validateScan_ok_iff params sig (sig.map Param.name)).mp ⟨out, hscan⟩
    have hmem := validateScan_ok_mem params sig (sig.map Param.name) out hnd hscan
    show (∃ e, (if (out.filter (fun n => decide (n ∉ params))).isEmpty then
        Except.ok () else Except.error "unavailable parameters") = Except.error e) ↔ _
    constructor
    · rintro ⟨e2, he2⟩
      by_cases hemp : (out.filter (fun n => decide (n ∉ params))).isEmpty = true
      · rw [if_pos hemp] at he2
        cases he2
      · have hne : out.filter (fun n => decide (n ∉ params)) ≠ [] := by
          intro hnil
          exact hemp (by rw [hnil]; rfl)
        obtain ⟨n, hn⟩ := List.exists_mem_of_ne_nil _ hne
        have hn1 := List.mem_filter.mp hn
        have hnp : n ∉ params := of_decide_eq_true hn1.2
        have hout := (hmem n).mp hn1.1
        rcases List.mem_map.mp hout.1 with ⟨p, hp, rfl⟩
        refine Or.inr (Or.inr ⟨p, hp, ?_, hnp⟩)
        intro hvk
        exact hout.2 p hp hvk rfl
    · intro hrhs
      rcases hrhs with ⟨p, hp, hvp⟩ | ⟨p, hp, hvk, hmm⟩ | ⟨p, hp, hnk, hnp⟩
      · exact absurd hvp (hall p hp).1
      · exact absurd ⟨hvk, hmm⟩ (hall p hp).2
      · have hin : p.name ∈ out := by
          rw [hmem p.name]
          refine ⟨List.mem_map_of_mem Param.name hp, fun q hq hqvk hqname => ?_⟩
          have hqp : q = p := List.inj_on_of_nodup_map hnd hq hp hqname
          rw [hqp] at hqvk
          exact hnk hqvk
        have hfil : p.name ∈ out.filter (fun n => decide (n ∉ params)) :=
          List.mem_filter.mpr ⟨hin, decide_eq_true hnp⟩
        have hne : ¬ (out.filter (fun n => decide (n ∉ params))).isEmpty = true := by
          intro hemp
          rw [List.isEmpty_iff] at hemp
          rw [hemp] at hfil
          cases hfil
        exact ⟨"unavailable parameters", by rw [if_neg hne]⟩

/-- A concrete callback signature for checking validation: one plain input
satisfiable by the event, one catch-all whose name does not collide. -/
def sigPlainAndCatchAll : Sig :=
  [⟨"x", Kind.positionalOrKeyword, none⟩, ⟨"kw", Kind.varKeyword, none⟩]

/-- Witness for C4 at the concrete callback `sigPlainAndCatchAll`:
validation succeeds and none of the three raise-conditions holds. -/
theorem validate_raises_iff_witness :
    (∃ e, validate_func sigPlainAndCatchAll ["x"] = Except.error e) ↔
      ((∃ p ∈ sigPlainAndCatchAll, p.kind = Kind.varPositional) ∨
       (∃ p ∈ sigPlainAndCatchAll, p.kind = Kind.varKeyword ∧ p.name ∈ ["x"]) ∨
       (∃ p ∈ sigPlainAndCatchAll, p.kind ≠ Kind.varKeyword ∧ p.name ∉ ["x"])) :=
  validate_raises_iff sigPlainAndCatchAll ["x"] (by decide)

/-- C5: in every reachable state of a handler's lifecycle, the outstanding
task set is empty exactly when the handler has no in-flight callback
invocations (entries are added at spawn and removed at completion), and once
a stop has drained and signalled shutdown complete - the point at which the
draining `stop()` call returns - the outstanding task set is empty. -/
theorem stop_drains_outstanding_tasks (s : TaskState) (h : TaskReachable s) :
    (s.tasks = [] ↔ s.inflight = []) ∧
    (s.shutdownComplete = true → s.tasks = []) := by
  obtain ⟨h1, _, _, h4⟩ := taskInv_reachable h
  exact ⟨by rw [h1], h4⟩

/-- Witness for C5 at the initial handler state, reachable by the empty run. -/
theorem stop_drains_outstanding_tasks_witness :
    (TaskState.init.tasks = [] ↔ TaskState.init.inflight = []) ∧
    (TaskState.init.shutdownComplete = true → TaskState.init.tasks = []) :=
  stop_drains_outstanding_tasks TaskState.init Relation.ReflTransGen.refl

theorem triggerFold_spec (ds : List (String × PMap)) :
    ∀ d : Dispatch, (triggerFold d ds).queue = d.queue ++ ds ∧
      (triggerFold d ds).handlers = d.handlers := by
  induction ds with
  | nil => intro d; exact ⟨(List.append_nil _).symm, rfl⟩
  | cons ep rest ih =>
    intro d
    obtain ⟨hq, hh⟩ := ih (d.trigger ep.1 ep.2)
    refine ⟨?_, hh⟩
    show (triggerFold (d.trigger ep.1 ep.2) rest).queue = d.queue ++ ep :: rest
    rw [hq]
    show d.queue ++ [ep] ++ rest = d.queue ++ ep :: rest
    rw [List.append_assoc]
    rfl

theorem drainTrace_of_all_registered (hs : List (String × EventHandler)) :
    ∀ q : List (String × PMap),
      (∀ ep ∈ q, (look ep.1 hs).isSome = true) → drainTrace hs q = q := by
  intro q
  induction q with
  | nil => intro _; rfl
  | cons ep rest ih =>
    intro hreg
    obtain ⟨e, p⟩ := ep
    have h1 := hreg (e, p) (List.mem_cons_self _ _)
    have h2 := ih (fun x hx => hreg x (List.mem_cons_of_mem _ hx))
    cases hl : look e hs with
    | none => rw [hl] at h1; cases h1
    | some h =>
      show (match look e hs with
        | none => drainTrace hs rest
        | some _ => (e, p) :: drainTrace hs rest) = _
      rw [hl, h2]

/-- C6: for any sequence of triggers enqueued before consumption begins (on
an empty queue), the consumer loop dequeues and routes the corresponding
deliveries to their handlers in exactly the enqueue order: the drain trace
equals the trigger sequence. -/
theorem fifo_delivery_order (d : Dispatch) (ds : List (String × PMap))
    (hq : d.queue = [])
    (hreg : ∀ ep ∈ ds, (look ep.1 d.handlers).isSome = true) :
    drainTrace (triggerFold d ds).handlers (triggerFold d ds).queue = ds := by
  obtain ⟨hqf, hhf⟩ := triggerFold_spec ds d
  rw [hqf, hhf, hq, List.nil_append]
  exact drainTrace_of_all_registered d.handlers ds hreg

/-- Witness for C6: two triggers for a registered event on a fresh engine
drain in enqueue order. -/
theorem fifo_delivery_order_witness :
    drainTrace
      (triggerFold
        ⟨[("e", EventHandler.init "e" ["x"])], [], false, false, false, false, false⟩
        [("e", [("x", Val.int 1)]), ("e", [("x", Val.int 2)])]).handlers
      (triggerFold
        ⟨[("e", EventHandler.init "e" ["x"])], [], false, false, false, false, false⟩
        [("e", [("x", Val.int 1)]), ("e", [("x", Val.int 2)])]).queue =
      [("e", [("x", Val.int 1)]), ("e", [("x", Val.int 2)])] :=
  fifo_delivery_order
    ⟨[("e", EventHandler.init "e" ["x"])], [], false, false, false, false, false⟩
    [("e", [("x", Val.int 1)]), ("e", [("x", Val.int 2)])]
    rfl (by decide)

theorem start_running (d : Dispatch) : (d.start).running = true := by
  unfold Dispatch.start
  by_cases hr : d.running = true
  · rw [if_pos hr]
    exact hr
  · rw [if_neg hr]

theorem stop_not_running (d : Dispatch) : (d.stop).running = false := by
  unfold Dispatch.stop
  by_cases hr : d.running = true
  · rw [if_pos hr]
  · rw [if_neg hr]
    exact Bool.not_eq_true _ |>.mp hr

theorem start_noop_of_running (d : Dispatch) (h : d.running = true) :
    d.start = d := by
  unfold Dispatch.start
  rw [if_pos h]

theorem stop_noop_of_not_running (d : Dispatch) (h : d.running = false) :
    d.stop = d := by
  unfold Dispatch.stop
  rw [if_neg (by rw [h]; exact Bool.false_ne_true)]

/-- C7: `start` and `stop` are idempotent: from every engine state, a second
consecutive `start` returns at the running check and leaves the state of one
`start` unchanged, and likewise a second consecutive `stop` returns at the
not-running check. -/
theorem start_stop_idempotent (d : Dispatch) :
    (d.start).start = d.start ∧ (d.stop).stop = d.stop :=
  ⟨start_noop_of_running d.start (start_running d),
   stop_noop_of_not_running d.stop (stop_not_running d)⟩

/-- C8: subscribing to an unregistered event raises the unknown-event error;
`trigger` is a total state transformer that never fails and only appends the
delivery to the queue (non-blocking enqueue); and a queued delivery whose
event is unregistered at dequeue time is silently dropped by the consumer
loop, not an error. -/
theorem unknown_event_asymmetry (d : Dispatch) (ev : String) (p : PMap)
    (rest : List (String × PMap)) (n : Nat)
    (hunk : look ev d.handlers = none) :
    d.on ev = Except.error "Unknown event" ∧
    (d.trigger ev p).queue = d.queue ++ [(ev, p)] ∧
    ({ d with queue := (ev, p) :: rest } : Dispatch).runStep n =
      Except.ok ({ d with queue := rest }, []) := by
  refine ⟨?_, rfl, ?_⟩
  · unfold Dispatch.on
    rw [hunk]
  · unfold Dispatch.runStep
    show (match look ev d.handlers with
      | none => Except.ok ({ d with queue := rest }, [])
      | some h =>
        match h.call p n with
        | .error e => .error e
        | .ok (h2, invs) =>
          let hs := d.handlers.map
            (fun kv : String × EventHandler => if kv.1 = ev then (kv.1, h2) else kv)
          Except.ok ({ d with queue := rest, handlers := hs }, invs)) = _
    rw [hunk]

/-- Witness for C8 on a one-handler engine and the unregistered name. -/
theorem unknown_event_asymmetry_witness :
    (Dispatch.on ⟨[("e", EventHandler.init "e" ["x"])], [], true, false, false,
        false, true⟩ "ghost" = Except.error "Unknown event") ∧
    ((Dispatch.trigger ⟨[("e", EventHandler.init "e" ["x"])], [], true, false,
        false, false, true⟩ "ghost" [("y", Val.int 5)]).queue =
      ([] : List (String × PMap)) ++ [("ghost", [("y", Val.int 5)])]) ∧
    (Dispatch.runStep ⟨[("e", EventHandler.init "e" ["x"])],
        [("ghost", [("y", Val.int 5)])], true, false, false, false, true⟩ 0 =
      Except.ok (⟨[("e", EventHandler.init "e" ["x"])], [], true, false, false,
        false, true⟩, [])) :=
  unknown_event_asymmetry
    ⟨[("e", EventHandler.init "e" ["x"])], [], true, false, false, false, true⟩
    "ghost" [("y", Val.int 5)] [] 0 rfl

/-- The Scenario A callback: inputs `foo` and `bar` without defaults and
`baz` with a declared default. -/
def sigScenarioA (dflt : Val) : Sig :=
  [⟨"foo", Kind.positionalOrKeyword, none⟩,
   ⟨"bar", Kind.positionalOrKeyword, none⟩,
   ⟨"baz", Kind.positionalOrKeyword, some dflt⟩]

/-- Scenario A run end to end on the sequential model: register
`my_event` with params `foo, bar, baz`, subscribe the callback, start,
trigger `foo = 1, bar = 2`, let the consumer process the queue, stop, and
clear; the result is the list of callback invocations that occurred. -/
def scenarioA (dflt : Val) : Except String (List (Except String CallEnv)) :=
  match Dispatch.init.register "my_event" ["foo", "bar", "baz"] with
  | .error e => .error e
  | .ok d =>
    match d.subscribe "my_event" (sigScenarioA dflt) with
    | .error e => .error e
    | .ok d2 =>
      match ((d2.start).trigger "my_event"
          [("foo", Val.int 1), ("bar", Val.int 2)]).runStep 0 with
      | .error e => .error e
      | .ok (d4, invs) =>
        match (d4.stop).clear with
        | .error e => .error e
        | .ok _ => .ok invs

/-- C9: Scenario A invokes the callback exactly once, with `foo = 1`,
`bar = 2` and `baz` bound to its declared default - supplied values overlay
the precomputed defaults only for known input names, and the whole
register/subscribe/start/trigger/stop/clear pipeline succeeds. -/
theorem scenarioA_single_invocation (dflt : Val) :
    scenarioA dflt =
      Except.ok [Except.ok
        ⟨[("foo", Val.int 1), ("bar", Val.int 2), ("baz", dflt)], []⟩] := rfl

theorem look_append_of_none {α : Type} (k : String) (l1 l2 : List (String × α))
    (h : look k l1 = none) : look k (l1 ++ l2) = look k l2 := by
  induction l1 with
  | nil => rfl
  | cons kv rest ih =>
    obtain ⟨k2, v⟩ := kv
    by_cases he : k2 = k
    · simp [look, he] at h
    · show look k ((k2, v) :: (rest ++ l2)) = _
      simp only [look, if_neg he] at h ⊢
      exact ih h

theorem runStep_error (d : Dispatch) (ev : String) (pm : PMap)
    (rest : List (String × PMap)) (n : Nat) (h : EventHandler) (e : String)
    (hq : d.queue = (ev, pm) :: rest)
    (hl : look ev d.handlers = some h)
    (hc : h.call pm n = Except.error e) :
    d.runStep n = Except.error e := by
  unfold Dispatch.runStep
  rw [hq]
  dsimp only
  rw [hl]
  dsimp only
  rw [hc]

/-- C10: registering an event while the engine is running inserts a handler
that is not running (registration never starts a handler, and `start` is a
no-op while the engine runs, so only a stop-start cycle would start it); a
delivery routed to that handler raises the not-running error instead of
invoking any callback, and the same error surfaces from the consumer step. -/
theorem register_while_running (d : Dispatch) (ev : String) (ps : List String)
    (pm : PMap) (n : Nat)
    (hrun : d.running = true) (hunk : look ev d.handlers = none) :
    ∃ d2, d.register ev ps = Except.ok d2 ∧
      look ev d2.handlers = some (EventHandler.init ev ps) ∧
      (EventHandler.init ev ps).running = false ∧
      (EventHandler.init ev ps).call pm n =
        Except.error "EventHandler must be running to delegate events" ∧
      d2.start = d2 ∧
      ({ d2 with queue := [(ev, pm)] } : Dispatch).runStep n =
        Except.error "EventHandler must be running to delegate events" := by
  have hl : look ev (d.handlers ++ [(ev, EventHandler.init ev ps)]) =
      some (EventHandler.init ev ps) := by
    rw [look_append_of_none ev d.handlers _ hunk]
    simp [look]
  refine ⟨{ d with handlers := d.handlers ++ [(ev, EventHandler.init ev ps)] },
    ?_, hl, rfl, rfl, ?_, ?_⟩
  · unfold Dispatch.register
    rw [hunk]
  · exact start_noop_of_running _ hrun
  · exact runStep_error _ ev pm [] n (EventHandler.init ev ps) _ rfl hl rfl

/-- Witness for C10: a fresh event registered on a running one-handler
engine yields a non-running handler whose delivery raises. -/
theorem register_while_running_witness :
    ∃ d2, Dispatch.register
        ⟨[("e", EventHandler.init "e" ["x"])], [], true, false, false, false, true⟩
        "late" ["y"] = Except.ok d2 ∧
      look "late" d2.handlers = some (EventHandler.init "late" ["y"]) ∧
      (EventHandler.init "late" ["y"]).running = false ∧
      (EventHandler.init "late" ["y"]).call [("y", Val.int 3)] 0 =
        Except.error "EventHandler must be running to delegate events" ∧
      d2.start = d2 ∧
      ({ d2 with queue := [("late", [("y", Val.int 3)])] } : Dispatch).runStep 0 =
        Except.error "EventHandler must be running to delegate events" :=
  register_while_running
    ⟨[("e", EventHandler.init "e" ["x"])], [], true, false, false, false, true⟩
    "late" ["y"] [("y", Val.int 3)] 0 rfl rfl
